import Mathlib

/-!
A shallow embedding of the deterministic parallel augmentation pipeline of
`imgaug/imgaug.py`: the random-stream derivation helpers (`new_random_state`,
`copy_random_state`, `derive_random_states`), the `Batch` envelope, the
producer stage (`BatchLoader`) and the consumer stage (`BackgroundAugmenter`),
together with theorems about the claims of the specification.
-/

namespace Imgaug

/-! ## StreamState model

Modelled from the spec: `StreamState` is "an opaque, cloneable, seedable
pseudo-random generator" whose "internal state vector [is] sufficient to
regenerate a deterministic sequence of uniform draws"; `np.random.RandomState`
is an external library object, not part of this repository.  We model the
internal state vector as a natural number.  `np.random.RandomState(s)`
initialises the vector as an injective deterministic function of the integer
seed `s`, which we model as the identity, and a draw is a pure function of the
current vector that also advances it, which we model by a fixed linear
congruential step.  All claims about the derivation helpers depend only on
these structural properties, not on the concrete transition function. -/

/-- One step of the pseudo-random transition function (a 64-bit linear
congruential generator standing in for numpy's Mersenne twister step). -/
def rngNext (s : Nat) : Nat :=
  (6364136223846793005 * s + 1442695040888963407) % 2 ^ 64

/-- `randint(0, 10**6, 1)[0]`: one uniform draw in `[0, 10**6)` together with
the advanced internal state. -/
def randint6 (s : Nat) : Nat × Nat :=
  (rngNext s % 10 ^ 6, rngNext s)

/-- The sequence of the first `k` draws regenerated from a state vector; used
to express "bit-identical draw sequences". -/
def drawSequence : Nat → Nat → List Nat
  | _, 0 => []
  | s, k + 1 => (randint6 s).1 :: drawSequence (randint6 s).2 k

/-- Object identity of a random-state value.  Python's
`random_state == np.random` test in `copy_random_state` falls back to object
identity (neither `np.random.RandomState` nor a module defines `__eq__`), so
the reference a state value lives at is observable and has to be part of the
model: `npRandomModule` is the module-level generator `np.random`,
`currentGlobal` is the library's module global `CURRENT_RANDOM_STATE`, and
`fresh i` is any other `RandomState` instance (with allocation id `i`). -/
inductive RSRef where
  | npRandomModule : RSRef
  | currentGlobal : RSRef
  | fresh (id : Nat) : RSRef
deriving DecidableEq

/-- A random-state value: the reference it lives at plus its internal state
vector. -/
structure RandomState where
  ref : RSRef
  state : Nat
deriving DecidableEq

/-- `CURRENT_RANDOM_STATE = np.random.RandomState(42)` (imgaug.py line 46):
the library's process-wide root stream. -/
def CURRENT_RANDOM_STATE : RandomState :=
  ⟨RSRef.currentGlobal, 42⟩

/-- `dummy_random_state()` (lines 289-299): `np.random.RandomState(1)`.
`freshId` is the identity of the newly allocated object. -/
def dummy_random_state (freshId : Nat) : RandomState :=
  ⟨RSRef.fresh freshId, 1⟩

/-- `copy_random_state(random_state, force_copy=False)` (lines 301-328):
if `random_state == np.random and not force_copy`, return the same reference;
otherwise allocate `dummy_random_state()` and overwrite its vector with
`random_state.get_state()`. -/
def copy_random_state (random_state : RandomState) (force_copy : Bool)
    (freshId : Nat) : RandomState :=
  if random_state.ref == RSRef.npRandomModule && !force_copy then
    random_state
  else
    { dummy_random_state freshId with state := random_state.state }

/-- `new_random_state(seed=None, fully_random=False)` (lines 260-287).
`glob` is the state vector of `CURRENT_RANDOM_STATE`, `entropy` models the
operating-system entropy consumed by `np.random.RandomState(None)`, and
`freshId` is the identity of the allocated object.  Returns the new state
together with the (possibly advanced) root vector:
if `seed is None` and not `fully_random`, one integer is drawn from
`CURRENT_RANDOM_STATE` and used as the seed. -/
def new_random_state (seed : Option Nat) (fully_random : Bool) (glob : Nat)
    (entropy : Nat) (freshId : Nat) : RandomState × Nat :=
  match seed with
  | some s => (⟨RSRef.fresh freshId, s⟩, glob)
  | none =>
    if fully_random then
      (⟨RSRef.fresh freshId, entropy⟩, glob)
    else
      (⟨RSRef.fresh freshId, (randint6 glob).1⟩, (randint6 glob).2)

/-- `derive_random_states(random_state, n)` (lines 348-367): draw one integer
`s = random_state.randint(0, 10**6, 1)[0]` (advancing `random_state` by
exactly one step) and return `[new_random_state(s + i) for i in range(n)]`.
Each inner call passes a concrete integer seed, so the root stream is neither
read nor advanced (lemma `new_random_state_some_preserves_glob`); the root
vector and entropy arguments of the inner calls are therefore irrelevant and
are passed as `0`.  `freshIds i` is the identity of the `i`-th new object. -/
def derive_random_states (random_state : RandomState) (n : Nat)
    (freshIds : Nat → Nat) : List RandomState × RandomState :=
  let s := (randint6 random_state.state).1
  (((List.range n).map fun i =>
      (new_random_state (some (s + i)) false 0 0 (freshIds i)).1),
   { random_state with state := (randint6 random_state.state).2 })

/-- A call of `new_random_state` with an explicit integer seed never touches
the root stream. -/
theorem new_random_state_some_preserves_glob (s : Nat) (fr : Bool)
    (glob entropy freshId : Nat) :
    (new_random_state (some s) fr glob entropy freshId).2 = glob := rfl

/-! ## Batch and the consumer worker's augmentation block

`Batch.__init__` (lines 3595-3604) stores the five pre-augmentation fields and
initialises the four parallel `*_aug` fields to `None`.  We parametrise over
the image-like payload type `I` (used for `images`, `images_gt` and
`mask_gt`), the keypoints payload type `K` and the opaque `data` type `D`. -/

structure Batch (I K D : Type) where
  images : Option I
  images_aug : Option I
  images_gt : Option I
  images_gt_aug : Option I
  mask_gt : Option I
  mask_gt_aug : Option I
  keypoints : Option K
  keypoints_aug : Option K
  data : D
deriving DecidableEq

/-- `Batch(images, images_gt, mask_gt, keypoints, data)`: the constructor sets
every `*_aug` field to `None`. -/
def Batch.init (I K D : Type) (images images_gt mask_gt : Option I)
    (keypoints : Option K) (data : D) : Batch I K D :=
  ⟨images, none, images_gt, none, mask_gt, none, keypoints, none, data⟩

/-- The augmentation-pipeline capability (`augseq`, `augseq_X`, `augseq_gt`)
as consumed by `_augment_images_worker`.  The pipeline is an opaque external
collaborator; the worker calls exactly four operations on it:
`augment_images` / `augment_keypoints` directly on the pipeline
(`aug_images` / `aug_keypoints`, consuming the pipeline's own randomness), and
the same two on the per-batch frozen instance `augseq.to_deterministic()`
(`det_images` / `det_keypoints`).  The `deterministic` flag mirrors
`augseq.deterministic`: when it is set, `to_deterministic()` is skipped and
the pipeline itself is used as the deterministic instance. -/
structure AugPipeline (I K : Type) where
  deterministic : Bool
  aug_images : I → I
  aug_keypoints : K → K
  det_images : I → I
  det_keypoints : K → K

/-- `augment_images` of `augseq_det = augseq.to_deterministic() if not
augseq.deterministic else augseq` (lines 3835 and 3839). -/
def AugPipeline.det_images_of (a : AugPipeline I K) : I → I :=
  if a.deterministic then a.aug_images else a.det_images

/-- `augment_keypoints` of the same per-batch deterministic instance. -/
def AugPipeline.det_keypoints_of (a : AugPipeline I K) : K → K :=
  if a.deterministic then a.aug_keypoints else a.det_keypoints

/-- The batch-augmentation block of `_augment_images_worker`
(lines 3830-3855), as a pure function on the deserialized batch.  The three
booleans are the worker's `self.augment_images`, `self.augment_images_gt` and
`self.augment_keypoints` flags (all set to `True` in
`BackgroundAugmenter.__init__` and never changed anywhere in the repository).
The guards of each branch ensure the corresponding stream is present, so
applying the pipeline through `Option.map` agrees with the Python code there;
`mask_gt` is the one field a branch may touch without a presence guard
(line 3842), and `Option.map` leaves it `None` in that case. -/
def augment_batch (augment_images augment_images_gt augment_keypoints : Bool)
    (augseq : AugPipeline I K) (augseq_X augseq_gt : Option (AugPipeline I K))
    (batch : Batch I K D) : Batch I K D :=
  let batch_augment_images := batch.images.isSome && augment_images
  let batch_augment_images_gt := batch.images_gt.isSome && augment_images_gt
  let batch_augment_keypoints := batch.keypoints.isSome && augment_keypoints
  if batch_augment_images && batch_augment_keypoints then
    { batch with
      images_aug := batch.images.map augseq.det_images_of,
      keypoints_aug := batch.keypoints.map augseq.det_keypoints_of }
  else if batch_augment_images && batch_augment_images_gt then
    let b1 :=
      { batch with
        images_aug := batch.images.map augseq.det_images_of,
        images_gt_aug := batch.images_gt.map augseq.det_images_of,
        mask_gt_aug := batch.mask_gt.map augseq.det_images_of }
    let b2 :=
      match augseq_X with
      | some aX => { b1 with images_aug := b1.images_aug.map aX.aug_images }
      | none => b1
    match augseq_gt with
    | some agt =>
      { b2 with
        images_gt_aug := b2.images_gt_aug.map agt.det_images_of,
        mask_gt_aug := b2.mask_gt_aug.map agt.det_images_of }
    | none => b2
  else if batch_augment_images then
    { batch with images_aug := batch.images.map augseq.aug_images }
  else if batch_augment_keypoints then
    { batch with keypoints_aug := batch.keypoints.map augseq.aug_keypoints }
  else
    batch

/-! ## The consumer worker loop and `get_batch`

`_augment_images_worker` (lines 3824-3863) runs `while True`: it polls the
source queue with `queue_source.get(timeout=0.1)` inside a `try` block whose
only handler is `except QueueEmpty`; the handler checks the producers'
finished signals and, when all are set, pushes one pickled `None` sentinel and
returns.  The `try` block also contains the deserialization, the augmentation
block and the result push, so an exception from those is caught if and only if
it is of the `QueueEmpty` type; any other exception propagates and kills the
worker.  We model exceptions by `PyError`, one loop iteration's environment by
`ConsumerStep` (the poll outcome plus the snapshot of the producers' finished
signals the handler would read), and the whole body between the poll and the
result push by an opaque `apply` function. -/

/-- An exception value: the `queue.Empty` type that the worker's handler
catches, or any other exception (with an arbitrary code). -/
inductive PyError where
  | queueEmptyErr : PyError
  | otherErr (code : Nat) : PyError
deriving DecidableEq

/-- One iteration's environment: `poll = some b` when
`queue_source.get(timeout=0.1)` returned the payload `b`, `poll = none` when
it raised `QueueEmpty`; `allFinished` is the value of
`all(signal.is_set() for signal in source_finished_signals)` at that moment. -/
structure ConsumerStep (G : Type) where
  poll : Option G
  allFinished : Bool
deriving DecidableEq

/-- How a worker's loop ended: still looping when the recorded environment ran
out, exited through the sentinel path, or killed by an uncaught exception. -/
inductive WorkerStatus where
  | running : WorkerStatus
  | done : WorkerStatus
  | crashed (e : PyError) : WorkerStatus
deriving DecidableEq

/-- The worker loop of `_augment_images_worker`: given the body `apply`
(deserialization + augmentation + serialization of one payload) and the
sequence of iteration environments, returns the messages pushed to
`queue_result` (`some b` a payload, `none` the sentinel) and the way the loop
ended. -/
def augment_images_worker (apply : G → Except PyError G) :
    List (ConsumerStep G) → List (Option G) × WorkerStatus
  | [] => ([], WorkerStatus.running)
  | step :: rest =>
    match step.poll with
    | some b =>
      match apply b with
      | Except.ok b2 =>
        let r := augment_images_worker apply rest
        (some b2 :: r.1, r.2)
      | Except.error PyError.queueEmptyErr =>
        -- a `queue.Empty` raised anywhere in the `try` block lands in the
        -- `except QueueEmpty` handler
        if step.allFinished then ([none], WorkerStatus.done)
        else augment_images_worker apply rest
      | Except.error (PyError.otherErr code) =>
        ([], WorkerStatus.crashed (PyError.otherErr code))
    | none =>
      if step.allFinished then ([none], WorkerStatus.done)
      else augment_images_worker apply rest

/-- The result of one `get_batch()` call: a real batch, the terminal `None`
telling the caller that no more data will come, or blocking forever on an
empty queue. -/
inductive GetResult (B : Type) where
  | batch (b : B) : GetResult B
  | terminal : GetResult B
  | blocked : GetResult B
deriving DecidableEq

/-- `BackgroundAugmenter.get_batch` (lines 3784-3806) acting on the result
queue, with `W` the worker count `self.nb_workers` and `c` the counter
`self.nb_workers_finished`: dequeue one item; a payload is returned as is; a
sentinel increments the counter and, when the counter has reached `W`,
produces the terminal result, otherwise the call recurses on the rest of the
queue.  Returns the result together with the updated counter and the part of
the queue that was not consumed. -/
def get_batch (W : Nat) : Nat → List (Option B) → GetResult B × Nat × List (Option B)
  | c, [] => (GetResult.blocked, c, [])
  | c, some b :: q => (GetResult.batch b, c, q)
  | c, none :: q =>
    if c + 1 = W then (GetResult.terminal, c + 1, q)
    else get_batch W (c + 1) q

/-- The caller's polling loop: call `get_batch()` repeatedly until it returns
the terminal result, collecting the non-terminal batches in order.  The
boolean records whether the terminal result was reached (`false` means the
modelled queue ran out and the next call would block). -/
def get_batch_run (W : Nat) : Nat → List (Option B) → List B × Bool
  | _, [] => ([], false)
  | c, some b :: q =>
    let r := get_batch_run W c q
    (b :: r.1, r.2)
  | c, none :: q =>
    if c + 1 = W then ([], true)
    else get_batch_run W (c + 1) q

/-! ## The producer worker `BatchLoader._load_batches`

Lines 3663-3684: after an optional reseed (`if seedval is not None`), the body
is `try: for batch in load_batch_func(): ... except Exception: log ...
finally: finished_signal.set()`.  Inside the loop the pickled batch is pushed
with a short-timeout retry loop that gives up as soon as `join_signal` is
observed set.  We model the generator as a finite list of steps (each either a
yielded batch or a raised exception, after which the generator produces
nothing further), and the `join_signal` observations as a list of booleans,
one consumed per yielded batch. -/

/-- One step of the user-supplied generator `load_batch_func()`. -/
inductive GenStep (B : Type) where
  | yields (b : B) : GenStep B
  | raises (code : Nat) : GenStep B
deriving DecidableEq

/-- An observable action of a producer worker: pushing one pickled batch to
the output queue, or setting its own finished signal. -/
inductive LoadEvent (B : Type) where
  | push (b : B) : LoadEvent B
  | setFinished : LoadEvent B
deriving DecidableEq

/-- Whether a load event is the setting of the finished signal. -/
def LoadEvent.isSetFin : LoadEvent B → Bool
  | LoadEvent.setFinished => true
  | LoadEvent.push _ => false

/-- The yields produced by the generator before its first raised exception
(everything after a raise is unreachable). -/
def before_first_raise : List (GenStep B) → List B
  | [] => []
  | GenStep.yields b :: rest => b :: before_first_raise rest
  | GenStep.raises _ :: _ => []

/-- The event trace of `_load_batches`: on exhaustion the `for` loop ends and
`finally` sets the finished signal; on a raised exception the handler logs it
and `finally` sets the finished signal; on a yielded batch, if `join_signal`
is observed set the push is abandoned and the loop breaks (again reaching
`finally`), otherwise the batch is pushed and the loop continues. -/
def load_batches_go : List (GenStep B) → List Bool → List (LoadEvent B)
  | [], _ => [LoadEvent.setFinished]
  | GenStep.raises _ :: _, _ => [LoadEvent.setFinished]
  | GenStep.yields b :: rest, js =>
    if js.headD false then [LoadEvent.setFinished]
    else LoadEvent.push b :: load_batches_go rest js.tail

/-- `_load_batches` as a whole: its event trace together with the exception
escaping the worker function — always `none`, because the worker body is
wrapped in `except Exception`. -/
def load_batches (gen : List (GenStep B)) (js : List Bool) :
    List (LoadEvent B) × Option Nat :=
  (load_batches_go gen js, none)

/-- The reseed prologue of `_load_batches` (lines 3664-3667) as it affects the
worker-local root stream `CURRENT_RANDOM_STATE`: `seed(seedval)` is executed
only when `seedval is not None`; a thread-mode worker (seedval `None`) keeps
the inherited vector. -/
def load_batches_reseed (seedval : Option Nat) (inherited : Nat) : Nat :=
  match seedval with
  | some s => s
  | none => inherited

/-! ## `BatchLoader` construction, `all_finished` and `terminate` -/

/-- The mutable state of a `BatchLoader` (lines 3631-3649): the execution
mode, the shared `join_signal`, one finished signal per worker, the output
queue contents (`B` the pickled-batch payload type), whether the queue has
been closed, and the `seedval` argument each worker's `_load_batches`
received. -/
structure LoaderState (B : Type) where
  threaded : Bool
  join_signal : Bool
  finished_signals : List Bool
  queue : List B
  queueClosed : Bool
  workerSeedvals : List (Option Nat)
deriving DecidableEq

/-- `n` successive draws of `randint(0, 10**6)` from the root vector `glob`,
modelling `current_random_state().randint(0, 10**6, size=(n,))`. -/
def drawSeeds : Nat → Nat → List Nat × Nat
  | 0, glob => ([], glob)
  | n + 1, glob =>
    let r := drawSeeds n (randint6 glob).2
    ((randint6 glob).1 :: r.1, r.2)

/-- `BatchLoader.__init__(load_batch_func, queue_size, nb_workers, threaded)`
(lines 3631-3649): the worker seeds are drawn from the root stream by one
`randint` call before the mode test, and each worker is started with
`seedval = None` in thread mode and `seedval = seeds[i]` in process mode.
Returns the constructed state together with the advanced root vector. -/
def batchLoader_init (B : Type) (nb_workers : Nat) (threaded : Bool)
    (glob : Nat) : LoaderState B × Nat :=
  let seeds := drawSeeds nb_workers glob
  ({ threaded := threaded,
     join_signal := false,
     finished_signals := List.replicate nb_workers false,
     queue := [],
     queueClosed := false,
     workerSeedvals :=
       if threaded then List.replicate nb_workers none
       else seeds.1.map some },
   seeds.2)

/-- `BatchLoader.all_finished` (lines 3651-3661):
`all(event.is_set() for event in self.finished_signals)`. -/
def all_finished (s : LoaderState B) : Bool :=
  s.finished_signals.all (fun e => e)

/-- `BatchLoader.terminate` (lines 3686-3719): set `join_signal`; sleep a
fixed 2 ms grace period (a real-time effect with no state content); drain the
queue by calling `get(timeout=0.005)` until `QueueEmpty`; then, in thread
mode, `join()` every worker — `join` returns only once the worker's
`_load_batches` has returned, whose `finally` has then set its finished signal
(the `load_batches_go` trace always ends in a `setFinished` event), so after
the joins every finished signal is set — while in process mode every worker
is killed with
`terminate()` + `join()` and every finished signal is set explicitly; finally
the queue is closed. -/
def terminate (s : LoaderState B) : LoaderState B :=
  let s1 := { s with join_signal := true, queue := [] }
  let s2 :=
    if s1.threaded then
      { s1 with finished_signals := s1.finished_signals.map (fun _ => true) }
    else
      { s1 with finished_signals := s1.finished_signals.map (fun _ => true) }
  { s2 with queueClosed := true }

/-! ## Concrete instances for counterexamples and witnesses -/

/-- A concrete pipeline over `Nat` payloads: direct application adds 1, the
per-batch deterministic instance adds 2. -/
def natPipeline : AugPipeline Nat Nat :=
  ⟨false, fun i => i + 1, fun k => k + 1, fun i => i + 2, fun k => k + 2⟩

/-- A batch carrying only ground-truth images. -/
def onlyGtBatch : Batch Nat Nat Nat :=
  Batch.init Nat Nat Nat none (some 7) none none 0

/-- A batch carrying only images. -/
def onlyImagesBatch : Batch Nat Nat Nat :=
  Batch.init Nat Nat Nat (some 3) none none none 0

/-- A batch carrying only keypoints. -/
def onlyKeypointsBatch : Batch Nat Nat Nat :=
  Batch.init Nat Nat Nat none none none (some 4) 0

/-- A concrete consumer-worker body over `Nat` payloads: payload 0 raises an
ordinary exception, payload 9 raises the `queue.Empty` type, anything else
succeeds. -/
def applyProbe : Nat → Except PyError Nat := fun n =>
  if n = 0 then Except.error (PyError.otherErr 3)
  else if n = 9 then Except.error PyError.queueEmptyErr
  else Except.ok (n + 1)

/-! ## Claim theorems -/

/-- Claim C1: for every random state with a fixed internal state value and
every `n ≥ 1`, `derive_random_states(state, n)` draws exactly one integer `s`
from `state` — advancing the state by exactly one transition step — and
returns a list of exactly `n` new random states seeded `s, s+1, …, s+n-1`;
consequently, calling it on two independently made clones of the same seeded
state (via `copy_random_state` with `force_copy=True`) yields lists of `n`
child states with identical state vectors. -/
theorem derive_random_states_spec (st : RandomState) (n : Nat)
    (ids ids1 ids2 : Nat → Nat) (i1 i2 : Nat) (_hn : 1 ≤ n) :
    ((derive_random_states st n ids).1.length = n) ∧
    ((derive_random_states st n ids).1.map RandomState.state =
      (List.range n).map (fun i => (randint6 st.state).1 + i)) ∧
    ((derive_random_states st n ids).2 =
      { st with state := (randint6 st.state).2 }) ∧
    ((derive_random_states (copy_random_state st true i1) n ids1).1.map
        RandomState.state =
      (derive_random_states (copy_random_state st true i2) n ids2).1.map
        RandomState.state) := by
  refine ⟨by simp [derive_random_states], ?_, rfl, ?_⟩
  · simp [derive_random_states, new_random_state, List.map_map]
  · simp [derive_random_states, copy_random_state, new_random_state,
      List.map_map]

/-- Witness for C1 at the state vector 5 and `n = 2`. -/
theorem derive_random_states_spec_witness :
    (1 ≤ 2) ∧
    (((derive_random_states ⟨RSRef.fresh 0, 5⟩ 2 id).1.length = 2) ∧
      ((derive_random_states ⟨RSRef.fresh 0, 5⟩ 2 id).1.map RandomState.state =
        (List.range 2).map (fun i => (randint6 (5 : Nat)).1 + i)) ∧
      ((derive_random_states ⟨RSRef.fresh 0, 5⟩ 2 id).2 =
        ⟨RSRef.fresh 0, (randint6 (5 : Nat)).2⟩) ∧
      ((derive_random_states
            (copy_random_state ⟨RSRef.fresh 0, 5⟩ true 3) 2 id).1.map
          RandomState.state =
        (derive_random_states
            (copy_random_state ⟨RSRef.fresh 0, 5⟩ true 4) 2 id).1.map
          RandomState.state)) :=
  ⟨by decide, derive_random_states_spec ⟨RSRef.fresh 0, 5⟩ 2 id id id 3 4 (by decide)⟩

/-- Claim C4, counterexample: the spec's process-wide root stream is the
library global `CURRENT_RANDOM_STATE` (the object `seed()` reseeds and
`current_random_state()` returns, and the one every stream is derived from),
but `copy_random_state(CURRENT_RANDOM_STATE, force_copy=False)` does NOT
return the same reference: the `random_state == np.random` test compares the
argument against the numpy module-level generator, which
`CURRENT_RANDOM_STATE` is not, so the root stream is cloned. -/
theorem copy_random_state_root_counterexample :
    copy_random_state CURRENT_RANDOM_STATE false 3 ≠ CURRENT_RANDOM_STATE ∧
    (copy_random_state CURRENT_RANDOM_STATE false 3).ref = RSRef.fresh 3 ∧
    (copy_random_state CURRENT_RANDOM_STATE false 3).state =
      CURRENT_RANDOM_STATE.state := by
  decide

/-- Claim C4 as amended: `copy_random_state(state, force_copy=False)` returns
the very same reference exactly when `state` is the numpy module-level
generator `np.random`; for the library's root stream `CURRENT_RANDOM_STATE`
and every other random state it returns an independent clone with an
identical internal state vector, and with `force_copy=True` it always
clones. -/
theorem copy_random_state_spec (rs : RandomState) (force : Bool) (fid : Nat) :
    (rs.ref = RSRef.npRandomModule ∧ force = false →
      copy_random_state rs force fid = rs) ∧
    ((rs.ref = RSRef.npRandomModule → force = true) →
      (copy_random_state rs force fid).ref = RSRef.fresh fid ∧
      (copy_random_state rs force fid).state = rs.state) ∧
    ((copy_random_state rs true fid).ref = RSRef.fresh fid ∧
      (copy_random_state rs true fid).state = rs.state) := by
  obtain ⟨r, st⟩ := rs
  cases force <;> cases r <;>
    simp [copy_random_state, dummy_random_state]

/-- Witness for C4's amended claim: the special case fires for `np.random`
itself, and the root stream `CURRENT_RANDOM_STATE` is cloned. -/
theorem copy_random_state_spec_witness :
    copy_random_state ⟨RSRef.npRandomModule, 7⟩ false 3 =
      ⟨RSRef.npRandomModule, 7⟩ ∧
    (copy_random_state CURRENT_RANDOM_STATE false 5).ref = RSRef.fresh 5 ∧
    (copy_random_state CURRENT_RANDOM_STATE false 5).state = 42 :=
  ⟨(copy_random_state_spec ⟨RSRef.npRandomModule, 7⟩ false 3).1 ⟨rfl, rfl⟩,
   ((copy_random_state_spec CURRENT_RANDOM_STATE false 5).2.1 (by decide)).1,
   ((copy_random_state_spec CURRENT_RANDOM_STATE false 5).2.1 (by decide)).2⟩

/-- Claim C9: for every non-`None` integer seed `s` and either boolean value
of `fully_random`, `new_random_state(s, fully_random)` returns a random state
constructed directly from `s` without touching the root stream, so the two
flag values produce bit-identical draw sequences; the flag has an effect only
when the seed is omitted. -/
theorem new_random_state_seed_spec (s glob entropy fid : Nat) (b : Bool) :
    new_random_state (some s) b glob entropy fid =
      (⟨RSRef.fresh fid, s⟩, glob) ∧
    new_random_state (some s) true glob entropy fid =
      new_random_state (some s) false glob entropy fid ∧
    (∀ k, drawSequence
        ((new_random_state (some s) true glob entropy fid).1.state) k =
      drawSequence
        ((new_random_state (some s) false glob entropy fid).1.state) k) :=
  ⟨rfl, rfl, fun _ => rfl⟩

/-- Claim C7: the consumer worker's augmentation block leaves the
pre-augmentation fields `images`, `images_gt`, `mask_gt`, `keypoints` and the
opaque `data` field of every batch unchanged, whatever the pipelines and
flags; it only assigns the parallel `*_aug` fields. -/
theorem augment_batch_frame_spec (fi fgt fk : Bool) (augseq : AugPipeline I K)
    (aX agt : Option (AugPipeline I K)) (b : Batch I K D) :
    (augment_batch fi fgt fk augseq aX agt b).images = b.images ∧
    (augment_batch fi fgt fk augseq aX agt b).images_gt = b.images_gt ∧
    (augment_batch fi fgt fk augseq aX agt b).mask_gt = b.mask_gt ∧
    (augment_batch fi fgt fk augseq aX agt b).keypoints = b.keypoints ∧
    (augment_batch fi fgt fk augseq aX agt b).data = b.data := by
  rcases aX with _ | aX <;> rcases agt with _ | agt <;>
    refine ⟨?_, ?_, ?_, ?_, ?_⟩ <;>
      (simp only [augment_batch]; repeat' split) <;> rfl

/-- Claim C8: when `BatchLoader.terminate()` returns, the stop flag is set,
the queued payloads have been drained, every worker's finished flag is set —
so `all_finished()` returns true — in both thread mode and process mode, and
the output channel is closed; `terminate` is idempotent (modelled as a total
state transformer, so it cannot block indefinitely). -/
theorem terminate_spec (s : LoaderState B) :
    (terminate s).join_signal = true ∧
    (terminate s).queue = [] ∧
    all_finished (terminate s) = true ∧
    (terminate s).queueClosed = true ∧
    terminate (terminate s) = terminate s := by
  obtain ⟨thr, js, fs, q, qc, ws⟩ := s
  cases thr <;>
    simp [terminate, all_finished, List.all_eq_true, List.map_map]

/-- Claim C10: `BatchLoader` construction draws its `nb_workers` worker seeds
from the process-wide root stream regardless of execution mode, so a
thread-mode construction advances the root vector exactly as a process-mode
one does, even though thread-mode workers receive `seedval = None` and are
never reseeded (the reseed prologue with `None` keeps the inherited
vector). -/
theorem batchLoader_init_seed_spec (B : Type) (n glob : Nat) :
    (batchLoader_init B n true glob).2 = (batchLoader_init B n false glob).2 ∧
    (batchLoader_init B n true glob).2 = (drawSeeds n glob).2 ∧
    (batchLoader_init B n true glob).1.workerSeedvals =
      List.replicate n none ∧
    (batchLoader_init B n false glob).1.workerSeedvals =
      (drawSeeds n glob).1.map some ∧
    (∀ g, load_batches_reseed none g = g) ∧
    (∀ sv g, load_batches_reseed (some sv) g = sv) :=
  ⟨rfl, rfl, rfl, rfl, fun _ => rfl, fun _ _ => rfl⟩

/-- Helper: when one `get_batch` call dequeues a payload, the polling loop
records that payload and continues on the unconsumed part of the queue with
the updated counter. -/
theorem get_batch_run_batch_step (W : Nat) :
    ∀ (q : List (Option B)) (c : Nat) (b : B) (c2 : Nat)
      (q2 : List (Option B)),
      get_batch W c q = (GetResult.batch b, c2, q2) →
      get_batch_run W c q =
        (b :: (get_batch_run W c2 q2).1, (get_batch_run W c2 q2).2) := by
  intro q
  induction q with
  | nil => intro c b c2 q2 h; simp [get_batch] at h
  | cons hd tl ih =>
    intro c b c2 q2 h
    rcases hd with _ | v
    · simp only [get_batch] at h
      by_cases hc : c + 1 = W
      · rw [if_pos hc] at h; simp at h
      · rw [if_neg hc] at h
        have h2 := ih (c + 1) b c2 q2 h
        simpa [get_batch_run, if_neg hc] using h2
    · simp only [get_batch, Prod.mk.injEq] at h
      obtain ⟨h1, h2, h3⟩ := h
      cases h1; subst h2; subst h3
      rfl

/-- Helper: when one `get_batch` call reaches the terminal result, the
polling loop stops with an empty remainder. -/
theorem get_batch_run_terminal_step (W : Nat) :
    ∀ (q : List (Option B)) (c c2 : Nat) (q2 : List (Option B)),
      get_batch W c q = (GetResult.terminal, c2, q2) →
      get_batch_run W c q = ([], true) := by
  intro q
  induction q with
  | nil => intro c c2 q2 h; simp [get_batch] at h
  | cons hd tl ih =>
    intro c c2 q2 h
    rcases hd with _ | v
    · simp only [get_batch] at h
      by_cases hc : c + 1 = W
      · simp [get_batch_run, hc]
      · rw [if_neg hc] at h
        have h2 := ih (c + 1) c2 q2 h
        simpa [get_batch_run, if_neg hc] using h2
    · simp [get_batch] at h

/-- Helper: the polling loop on a queue holding exactly `W - c` sentinels, the
last message being one of them, returns every payload in order and then the
terminal result. -/
theorem get_batch_run_complete (W : Nat) :
    ∀ (q : List (Option B)) (c : Nat), c < W →
      q.countP (fun x => x.isNone) = W - c →
      q.getLast? = some none →
      get_batch_run W c q = (q.filterMap id, true) := by
  intro q
  induction q with
  | nil =>
    intro c hc hcount _
    simp only [List.countP_nil] at hcount
    omega
  | cons hd tl ih =>
    intro c hc hcount hlast
    rcases hd with _ | v
    · rw [List.countP_cons] at hcount
      simp only [Option.isNone_none, if_pos] at hcount
      by_cases hcw : c + 1 = W
      · have htl : tl = [] := by
          cases tl with
          | nil => rfl
          | cons a l =>
            exfalso
            rw [List.getLast?_cons_cons] at hlast
            have hmem : (none : Option B) ∈ a :: l :=
              List.mem_of_mem_getLast? hlast
            have hpos : 0 < (a :: l).countP (fun x => x.isNone) :=
              List.countP_pos_iff.mpr ⟨none, hmem, rfl⟩
            omega
        subst htl
        simp [get_batch_run, hcw]
      · have hc2 : c + 1 < W := by omega
        have hcnt2 : tl.countP (fun x => x.isNone) = W - (c + 1) := by omega
        have htl : tl ≠ [] := by
          intro he
          subst he
          simp only [List.countP_nil] at hcnt2
          omega
        have hlast2 : tl.getLast? = some none := by
          cases tl with
          | nil => exact absurd rfl htl
          | cons a l => rwa [List.getLast?_cons_cons] at hlast
        have h2 := ih (c + 1) hc2 hcnt2 hlast2
        simp [get_batch_run, hcw, h2]
    · rw [List.countP_cons] at hcount
      simp only [Option.isNone_some, if_neg, Bool.false_eq_true,
        not_false_eq_true, Nat.add_zero] at hcount
      have htl : tl ≠ [] := by
        intro he
        subst he
        simp at hlast
      have hlast2 : tl.getLast? = some none := by
        cases tl with
        | nil => exact absurd rfl htl
        | cons a l => rwa [List.getLast?_cons_cons] at hlast
      have h2 := ih c hc hcount hlast2
      simp [get_batch_run, h2]

/-- Helper: a consumer worker that exits through the sentinel path pushed
exactly one sentinel, as its last message. -/
theorem consumer_done_sentinel (apply : G → Except PyError G) :
    ∀ evs : List (ConsumerStep G),
      (augment_images_worker apply evs).2 = WorkerStatus.done →
      (augment_images_worker apply evs).1.countP (fun x => x.isNone) = 1 ∧
      (augment_images_worker apply evs).1.getLast? = some none := by
  intro evs
  induction evs with
  | nil => intro h; simp [augment_images_worker] at h
  | cons step rest ih =>
    intro h
    obtain ⟨sp, sf⟩ := step
    rcases sp with _ | x
    · cases sf
      · simp only [augment_images_worker] at h ⊢
        exact ih h
      · simp [augment_images_worker]
    · rcases hax : apply x with e | y
      · rcases e with _ | k
        · cases sf
          · simp only [augment_images_worker, hax] at h ⊢
            exact ih h
          · simp [augment_images_worker, hax]
        · simp [augment_images_worker, hax] at h
      · simp only [augment_images_worker, hax] at h ⊢
        obtain ⟨hcnt, hlast⟩ := ih h
        constructor
        · simpa [List.countP_cons] using hcnt
        · rcases hr : (augment_images_worker apply rest).1 with _ | ⟨a, l⟩
          · rw [hr] at hcnt
            simp only [List.countP_nil] at hcnt
            exact absurd hcnt (by decide)
          · rw [hr] at hlast
            rwa [List.getLast?_cons_cons]

/-- Claim C2: `get_batch()` blocks on the result queue; a dequeued payload is
returned as is; a dequeued sentinel increments the finished-worker counter
and, while the counter is below the consumer worker count `W`, the call
fetches the next item recursively, and on reaching `W` it returns the
terminal `None` (first three conjuncts, the third tying the polling loop to
single `get_batch` calls).  Hence, for a result queue carrying exactly `K`
payloads and `W ≥ 1` sentinels with a sentinel as its last message, the
caller sees exactly the `K` payloads as non-terminal returns followed by
exactly one terminal return; and every consumer worker that exits through the
sentinel path pushed exactly one sentinel, as its last message (last
conjunct). -/
theorem get_batch_sequence_spec {B G : Type} (W K : Nat)
    (q : List (Option B)) (apply : G → Except PyError G) (hW : 1 ≤ W)
    (hsent : q.countP (fun x => x.isNone) = W)
    (hlast : q.getLast? = some none)
    (hK : (q.filterMap id).length = K) :
    (∀ (c : Nat) (b : B) (q2 : List (Option B)),
      get_batch W c (some b :: q2) = (GetResult.batch b, c, q2)) ∧
    (∀ (c : Nat) (q2 : List (Option B)),
      get_batch W c (none :: q2) =
        if c + 1 = W then (GetResult.terminal, c + 1, q2)
        else get_batch W (c + 1) q2) ∧
    (∀ (c : Nat) (q2 : List (Option B)) (b : B) (c2 : Nat)
      (q3 : List (Option B)),
      get_batch W c q2 = (GetResult.batch b, c2, q3) →
      get_batch_run W c q2 =
        (b :: (get_batch_run W c2 q3).1, (get_batch_run W c2 q3).2)) ∧
    get_batch_run W 0 q = (q.filterMap id, true) ∧
    (get_batch_run W 0 q).1.length = K ∧
    (∀ evs : List (ConsumerStep G),
      (augment_images_worker apply evs).2 = WorkerStatus.done →
      (augment_images_worker apply evs).1.countP (fun x => x.isNone) = 1 ∧
      (augment_images_worker apply evs).1.getLast? = some none) := by
  have hrun : get_batch_run W 0 q = (q.filterMap id, true) :=
    get_batch_run_complete W q 0 (by omega) (by simpa using hsent) hlast
  refine ⟨fun c b q2 => rfl, fun c q2 => rfl,
    fun c q2 b c2 q3 h => get_batch_run_batch_step W q2 c b c2 q3 h,
    hrun, ?_, consumer_done_sentinel apply⟩
  rw [hrun]
  exact hK

/-- Witness for C2: a queue with two payloads and two sentinels interleaved
(`W = 2`, `K = 2`), as produced by two consumer workers. -/
theorem get_batch_sequence_spec_witness :
    (1 ≤ 2) ∧
    (([some 10, none, some 20, none] :
        List (Option Nat)).countP (fun x => x.isNone) = 2) ∧
    (([some 10, none, some 20, none] :
        List (Option Nat)).getLast? = some none) ∧
    get_batch_run 2 0 ([some 10, none, some 20, none] : List (Option Nat)) =
      ([10, 20], true) :=
  ⟨by decide, by decide, by decide,
    (get_batch_sequence_spec 2 2 ([some 10, none, some 20, none] :
        List (Option Nat)) applyProbe (by decide) (by decide) (by decide)
      (by decide)).2.2.2.1⟩

/-- Helper: with the stop flag never observed set, the producer worker's
trace is one push per yield before the first raise, then the single
`setFinished` event from the `finally` clause. -/
theorem load_batches_go_eq (gen : List (GenStep B)) :
    ∀ js : List Bool, (∀ x ∈ js, x = false) →
      load_batches_go gen js =
        (before_first_raise gen).map LoadEvent.push ++
          [LoadEvent.setFinished] := by
  induction gen with
  | nil => intro js _; simp [load_batches_go, before_first_raise]
  | cons hd tl ih =>
    intro js h
    cases hd with
    | raises c => simp [load_batches_go, before_first_raise]
    | yields b =>
      have hh : js.headD false = false := by
        cases js with
        | nil => rfl
        | cons x xs => exact h x (List.mem_cons_self x xs)
      simp only [load_batches_go, before_first_raise, hh, Bool.false_eq_true,
        if_false, List.map_cons, List.cons_append, List.cons.injEq, true_and]
      exact ih js.tail (fun x hx => h x (List.mem_of_mem_tail hx))

/-- Helper: whatever the generator and the observed stop flag, the producer
worker's trace ends with exactly one `setFinished` event and the worker
function swallows every generator exception. -/
theorem load_batches_go_finished (gen : List (GenStep B)) :
    ∀ js : List Bool,
      (load_batches_go gen js).countP LoadEvent.isSetFin = 1 ∧
      (load_batches_go gen js).getLast? = some LoadEvent.setFinished := by
  induction gen with
  | nil => intro js; simp [load_batches_go, LoadEvent.isSetFin]
  | cons hd tl ih =>
    intro js
    cases hd with
    | raises c => simp [load_batches_go, LoadEvent.isSetFin]
    | yields b =>
      have key : ∀ js2 : List Bool,
          (LoadEvent.push b :: load_batches_go tl js2).countP
            LoadEvent.isSetFin = 1 ∧
          (LoadEvent.push b :: load_batches_go tl js2).getLast? =
            some LoadEvent.setFinished := by
        intro js2
        obtain ⟨hc, hl⟩ := ih js2
        constructor
        · simp only [List.countP_cons, LoadEvent.isSetFin]
          simpa using hc
        · rcases hr : load_batches_go tl js2 with _ | ⟨a, l⟩
          · rw [hr] at hc
            simp only [List.countP_nil] at hc
            exact absurd hc (by decide)
          · rw [hr] at hl
            rwa [List.getLast?_cons_cons]
      rcases js with _ | ⟨x, xs⟩
      · simpa [load_batches_go] using key []
      · cases x
        · simpa [load_batches_go] using key xs
        · simp [load_batches_go, LoadEvent.isSetFin]

/-- Claim C5: for every producer worker, whether the batch-generating routine
is exhausted or raises, the worker sets its finished flag exactly once, as
the very last event (after all pushes); the exception is caught inside
`_load_batches` and never escapes the worker function; and when the stop flag
is never observed set, the pushed payloads are exactly the yields preceding
the first raise, so a failure only shows up as fewer batches and one worker's
trace is a function of its own generator alone, leaving sibling workers
unaffected. -/
theorem load_batches_finished_spec (gen : List (GenStep B)) (js : List Bool)
    (hjs : ∀ x ∈ js, x = false) :
    (load_batches gen js).1.countP LoadEvent.isSetFin = 1 ∧
    (load_batches gen js).1.getLast? = some LoadEvent.setFinished ∧
    (load_batches gen js).2 = none ∧
    (load_batches gen js).1 =
      (before_first_raise gen).map LoadEvent.push ++
        [LoadEvent.setFinished] :=
  ⟨(load_batches_go_finished gen js).1,
   (load_batches_go_finished gen js).2,
   rfl,
   load_batches_go_eq gen js hjs⟩

/-- Witness for C5: a generator that yields one batch and then raises. -/
theorem load_batches_finished_spec_witness :
    (∀ x ∈ ([] : List Bool), x = false) ∧
    (load_batches [GenStep.yields (1 : Nat), GenStep.raises 2] []).1 =
      [LoadEvent.push 1, LoadEvent.setFinished] ∧
    (load_batches [GenStep.yields (1 : Nat), GenStep.raises 2] []).2 = none :=
  ⟨by simp,
   (load_batches_finished_spec [GenStep.yields 1, GenStep.raises 2] []
      (by simp)).2.2.2,
   (load_batches_finished_spec [GenStep.yields 1, GenStep.raises 2] []
      (by simp)).2.2.1⟩

/-- Helper: a non-`Empty` exception from the worker body, after any number of
iterations that keep the loop going, crashes the worker with no sentinel ever
pushed. -/
theorem consumer_crash_aux (apply : G → Except PyError G)
    (s : ConsumerStep G) (rest : List (ConsumerStep G)) (b : G) (m : Nat)
    (hs : s.poll = some b)
    (hb : apply b = Except.error (PyError.otherErr m)) :
    ∀ pre : List (ConsumerStep G),
      (∀ st ∈ pre, st.allFinished = false ∧
        ∀ x, st.poll = some x →
          ∀ k, apply x ≠ Except.error (PyError.otherErr k)) →
      (augment_images_worker apply (pre ++ s :: rest)).2 =
        WorkerStatus.crashed (PyError.otherErr m) ∧
      (augment_images_worker apply (pre ++ s :: rest)).1.countP
        (fun x => x.isNone) = 0 := by
  intro pre
  induction pre with
  | nil =>
    intro _
    obtain ⟨sp, sf⟩ := s
    simp only at hs
    subst hs
    simp [augment_images_worker, hb]
  | cons st pre ih =>
    intro hpre
    have hst := hpre st (List.mem_cons_self st pre)
    have ih2 := ih (fun u hu => hpre u (List.mem_cons_of_mem st hu))
    obtain ⟨stp, stf⟩ := st
    rcases stp with _ | x
    · have hf : stf = false := hst.1
      subst hf
      simpa [augment_images_worker] using ih2
    · rcases hax : apply x with e | y
      · rcases e with _ | k
        · have hf : stf = false := hst.1
          subst hf
          simpa [augment_images_worker, hax] using ih2
        · exact absurd hax (hst.2 x rfl k)
      · simp only [augment_images_worker, hax, List.cons_append]
        refine ⟨ih2.1, ?_⟩
        simp only [List.countP_cons]
        simpa using ih2.2

/-- Claim C6, counterexample: an exception of the `queue.Empty` type raised
by the augmentation-pipeline application IS caught — the `except QueueEmpty`
handler wraps the whole loop body, not just the poll — and is treated as an
empty poll: with all producers finished the worker even pushes a sentinel and
exits normally, and with producers unfinished it simply continues, in both
cases contradicting "not caught / terminates the worker / pushes no
sentinel". -/
theorem consumer_queue_empty_counterexample :
    augment_images_worker applyProbe [⟨some 9, true⟩] =
      ([none], WorkerStatus.done) ∧
    augment_images_worker applyProbe [⟨some 9, false⟩, ⟨none, true⟩] =
      ([none], WorkerStatus.done) := by
  decide

/-- Claim C6 as amended: an exception raised by an augmentation-pipeline
application propagates out of the worker loop, terminating the worker without
any sentinel having been pushed, PROVIDED the exception is not of the input
queue's `Empty` type (an `Empty` raised inside the loop body is caught by the
poll handler and treated as an empty poll); poll timeouts with producers
unfinished are caught and merely re-poll (last conjunct). -/
theorem consumer_error_propagation_spec (apply : G → Except PyError G)
    (pre : List (ConsumerStep G)) (s : ConsumerStep G)
    (rest : List (ConsumerStep G)) (b : G) (m : Nat)
    (hpre : ∀ st ∈ pre, st.allFinished = false ∧
      ∀ x, st.poll = some x →
        ∀ k, apply x ≠ Except.error (PyError.otherErr k))
    (hs : s.poll = some b)
    (hb : apply b = Except.error (PyError.otherErr m)) :
    (augment_images_worker apply (pre ++ s :: rest)).2 =
      WorkerStatus.crashed (PyError.otherErr m) ∧
    (augment_images_worker apply (pre ++ s :: rest)).1.countP
      (fun x => x.isNone) = 0 ∧
    (∀ rest2 : List (ConsumerStep G),
      augment_images_worker apply (⟨none, false⟩ :: rest2) =
        augment_images_worker apply rest2) :=
  ⟨(consumer_crash_aux apply s rest b m hs hb pre hpre).1,
   (consumer_crash_aux apply s rest b m hs hb pre hpre).2,
   fun _ => rfl⟩

/-- Witness for C6's amended claim: after one successful payload and one
re-poll, payload 0 makes the body raise an ordinary exception; the worker
crashes and its trace carries no sentinel. -/
theorem consumer_error_propagation_spec_witness :
    (augment_images_worker applyProbe
        [⟨some 5, false⟩, ⟨none, false⟩, ⟨some 0, true⟩, ⟨none, true⟩]).2 =
      WorkerStatus.crashed (PyError.otherErr 3) ∧
    (augment_images_worker applyProbe
        [⟨some 5, false⟩, ⟨none, false⟩, ⟨some 0, true⟩, ⟨none, true⟩]).1.countP
      (fun x => x.isNone) = 0 := by
  have h := consumer_error_propagation_spec applyProbe
    [⟨some 5, false⟩, ⟨none, false⟩] ⟨some 0, true⟩ [⟨none, true⟩] 0 3
    (by
      intro st hst
      simp only [List.mem_cons, List.not_mem_nil, or_false] at hst
      rcases hst with h1 | h1 <;> subst h1
      · refine ⟨rfl, ?_⟩
        intro x hx k
        simp only at hx
        cases hx
        simp [applyProbe]
      · refine ⟨rfl, ?_⟩
        intro x hx k
        simp only at hx
        exact absurd hx (by simp))
    rfl
    (by simp [applyProbe])
  exact ⟨h.1, h.2.1⟩

/-- Claim C3, counterexample: a batch in which only the ground-truth image
stream is present is NOT augmented at all — the worker's branch chain has no
ground-truth-only case, so `images_gt_aug` stays `None` and the batch is
pushed unchanged, contradicting "applies the shared pipeline to that single
stream and populates the corresponding `*_aug` field". -/
theorem augment_batch_gt_only_counterexample :
    (augment_batch true true true natPipeline none none
        onlyGtBatch).images_gt_aug = none ∧
    augment_batch true true true natPipeline none none onlyGtBatch =
      onlyGtBatch := by
  decide

/-- Claim C3 as amended: with the worker's stream flags as constructed (all
true), a batch with only images present gets the shared pipeline applied to
the images alone (`images_aug` populated, directly via
`augseq.augment_images`), a batch with only keypoints present likewise gets
`keypoints_aug` populated, but a batch with only ground-truth images present
is pushed unchanged, with `images_gt_aug` left unpopulated. -/
theorem augment_batch_single_stream_spec (augseq : AugPipeline I K)
    (aX agt : Option (AugPipeline I K)) (b : Batch I K D) :
    (b.images.isSome = true → b.keypoints = none → b.images_gt = none →
      augment_batch true true true augseq aX agt b =
        { b with images_aug := b.images.map augseq.aug_images }) ∧
    (b.keypoints.isSome = true → b.images = none → b.images_gt = none →
      augment_batch true true true augseq aX agt b =
        { b with keypoints_aug := b.keypoints.map augseq.aug_keypoints }) ∧
    (b.images_gt.isSome = true → b.images = none → b.keypoints = none →
      augment_batch true true true augseq aX agt b = b) := by
  obtain ⟨imgs, ia, gts, ga, msk, ma, kps, ka, d⟩ := b
  rcases imgs with _ | i <;> rcases gts with _ | g <;> rcases kps with _ | k <;>
    refine ⟨?_, ?_, ?_⟩ <;> intro h1 h2 h3 <;>
      simp_all [augment_batch]

/-- Witness for C3's amended claim at concrete single-stream batches. -/
theorem augment_batch_single_stream_spec_witness :
    augment_batch true true true natPipeline none none onlyImagesBatch =
      { onlyImagesBatch with images_aug := some 4 } ∧
    augment_batch true true true natPipeline none none onlyKeypointsBatch =
      { onlyKeypointsBatch with keypoints_aug := some 5 } ∧
    augment_batch true true true natPipeline none none
        (Batch.init Nat Nat Nat none (some 8) none none 0) =
      Batch.init Nat Nat Nat none (some 8) none none 0 :=
  ⟨(augment_batch_single_stream_spec natPipeline none none
      onlyImagesBatch).1 rfl rfl rfl,
   (augment_batch_single_stream_spec natPipeline none none
      onlyKeypointsBatch).2.1 rfl rfl rfl,
   (augment_batch_single_stream_spec natPipeline none none
      (Batch.init Nat Nat Nat none (some 8) none none 0)).2.2 rfl rfl rfl⟩

end Imgaug
